import Mathlib

/-!
Verification of the session-multiplexing tunnel core
(`network/tunnel/default.go`).

The Go source is shallowly embedded: pure Lean functions for the hashing
helpers, explicit state passing for the tunnel, and step functions for the
two background loops.  Go channels are modelled by a three-state signal
type (`Sig`, distinguishing the nil channel, an allocated open channel and
a closed channel) for the signal channels, and by bounded `List` queues
for the buffered message channels.  Go maps are modelled by association
lists with in-place overwrite, and map lookups of absent string keys
return `""` exactly as in Go.
-/

set_option maxRecDepth 20000
set_option linter.unusedVariables false

namespace Tunnel

/-! ### SHA-256 (`crypto/sha256`, the external hash used by `newSocket`)

`newSocket` computes `h := sha256.New(); h.Write([]byte(id));
fmt.Sprintf("%x", h.Sum(nil))`.  We embed the FIPS 180-4 SHA-256 algorithm
on byte lists (`Nat`s below 256), with 32-bit words as `Nat` reduced
modulo `2 ^ 32`. -/

/-- 2^32, the word modulus of SHA-256. -/
def M32 : Nat := 4294967296

/-- Addition modulo 2^32. -/
def add32 (a b : Nat) : Nat := (a + b) % M32

/-- Bitwise complement on 32-bit words. -/
def not32 (a : Nat) : Nat := Nat.xor a (M32 - 1)

/-- Right rotation of a 32-bit word by `n` places. -/
def rotr (n a : Nat) : Nat := a / 2 ^ n + a % 2 ^ n * 2 ^ (32 - n)

/-- Logical right shift of a 32-bit word by `n` places. -/
def shr (n a : Nat) : Nat := a / 2 ^ n

/-- SHA-256 choice function. -/
def ch (e f g : Nat) : Nat := Nat.xor (Nat.land e f) (Nat.land (not32 e) g)

/-- SHA-256 majority function. -/
def maj (a b c : Nat) : Nat :=
  Nat.xor (Nat.xor (Nat.land a b) (Nat.land a c)) (Nat.land b c)

/-- SHA-256 big sigma 0. -/
def bsig0 (x : Nat) : Nat := Nat.xor (Nat.xor (rotr 2 x) (rotr 13 x)) (rotr 22 x)

/-- SHA-256 big sigma 1. -/
def bsig1 (x : Nat) : Nat := Nat.xor (Nat.xor (rotr 6 x) (rotr 11 x)) (rotr 25 x)

/-- SHA-256 small sigma 0. -/
def ssig0 (x : Nat) : Nat := Nat.xor (Nat.xor (rotr 7 x) (rotr 18 x)) (shr 3 x)

/-- SHA-256 small sigma 1. -/
def ssig1 (x : Nat) : Nat := Nat.xor (Nat.xor (rotr 17 x) (rotr 19 x)) (shr 10 x)

/-- The 64 SHA-256 round constants (FIPS 180-4 §4.2.2, as decimal words). -/
def K : List Nat :=
  [1116352408, 1899447441, 3049323471, 3921009573, 961987163,
   1508970993, 2453635748, 2870763221, 3624381080, 310598401,
   607225278, 1426881987, 1925078388, 2162078206, 2614888103,
   3248222580, 3835390401, 4022224774, 264347078, 604807628,
   770255983, 1249150122, 1555081692, 1996064986, 2554220882,
   2821834349, 2952996808, 3210313671, 3336571891, 3584528711,
   113926993, 338241895, 666307205, 773529912, 1294757372,
   1396182291, 1695183700, 1986661051, 2177026350, 2456956037,
   2730485921, 2820302411, 3259730800, 3345764771, 3516065817,
   3600352804, 4094571909, 275423344, 430227734, 506948616,
   659060556, 883997877, 958139571, 1322822218, 1537002063,
   1747873779, 1955562222, 2024104815, 2227730452, 2361852424,
   2428436474, 2756734187, 3204031479, 3329325298]

/-- The eight working variables of the SHA-256 compression function. -/
structure H8 where
  a : Nat
  b : Nat
  c : Nat
  d : Nat
  e : Nat
  f : Nat
  g : Nat
  h : Nat
  deriving DecidableEq, Repr

/-- The SHA-256 initial hash value (FIPS 180-4 §5.3.3, as decimal words). -/
def initH : H8 :=
  ⟨1779033703, 3144134277, 1013904242, 2773480762,
   1359893119, 2600822924, 528734635, 1541459225⟩

/-- One SHA-256 round: `k` is the round constant, `w` the schedule word. -/
def round (st : H8) (k w : Nat) : H8 :=
  let t1 := add32 (add32 (add32 (add32 st.h (bsig1 st.e)) (ch st.e st.f st.g)) k) w
  let t2 := add32 (bsig0 st.a) (maj st.a st.b st.c)
  ⟨add32 t1 t2, st.a, st.b, st.c, add32 st.d t1, st.e, st.f, st.g⟩

/-- Extend a 16-word message block to the full 64-word schedule
(`fuel` counts the 48 remaining words to generate). -/
def extendW (ws : List Nat) : Nat → List Nat
  | 0 => ws
  | fuel + 1 =>
    let n := ws.length
    let nw := add32 (add32 (ssig1 (ws.getD (n - 2) 0)) (ws.getD (n - 7) 0))
      (add32 (ssig0 (ws.getD (n - 15) 0)) (ws.getD (n - 16) 0))
    extendW (ws ++ [nw]) fuel

/-- Group a byte list into big-endian 32-bit words. -/
def toWords : List Nat → List Nat
  | b0 :: b1 :: b2 :: b3 :: rest =>
    (b0 * 16777216 + b1 * 65536 + b2 * 256 + b3) :: toWords rest
  | _ => []

/-- The `k` low-order bytes of `n`, big-endian. -/
def beBytes : Nat → Nat → List Nat
  | 0, _ => []
  | k + 1, n => n / 2 ^ (8 * k) % 256 :: beBytes k n

/-- SHA-256 compression of a single 64-byte block into the running state. -/
def compressBlock (st : H8) (block : List Nat) : H8 :=
  let w := extendW (toWords block) 48
  let st1 := (K.zip w).foldl (fun s p => round s p.1 p.2) st
  ⟨add32 st.a st1.a, add32 st.b st1.b, add32 st.c st1.c, add32 st.d st1.d,
   add32 st.e st1.e, add32 st.f st1.f, add32 st.g st1.g, add32 st.h st1.h⟩

/-- SHA-256 padding: append `0x80`, zeros up to 56 mod 64, then the
64-bit big-endian bit length. -/
def padBytes (msg : List Nat) : List Nat :=
  let L := msg.length
  let zeros := (64 + 56 - (L % 64 + 1)) % 64
  msg ++ [128] ++ List.replicate zeros 0 ++ beBytes 8 (L * 8)

/-- Split a (padded) byte list into 64-byte blocks. -/
def chunksAux : Nat → List Nat → List (List Nat)
  | 0, _ => []
  | n + 1, l => l.take 64 :: chunksAux n (l.drop 64)

/-- All 64-byte blocks of a padded byte list. -/
def chunks64 (l : List Nat) : List (List Nat) := chunksAux (l.length / 64) l

/-- The 32 digest bytes of a final SHA-256 state, big-endian per word. -/
def digestBytes (st : H8) : List Nat :=
  beBytes 4 st.a ++ beBytes 4 st.b ++ beBytes 4 st.c ++ beBytes 4 st.d ++
  beBytes 4 st.e ++ beBytes 4 st.f ++ beBytes 4 st.g ++ beBytes 4 st.h

/-- SHA-256 of a byte list. -/
def sha256 (msg : List Nat) : List Nat :=
  digestBytes ((chunks64 (padBytes msg)).foldl compressBlock initH)

/-! ### Hex encoding and string bytes

`fmt.Sprintf("%x", digest)` renders every digest byte as two lowercase hex
characters; `[]byte(id)` is the UTF-8 encoding of the Go string. -/

/-- The sixteen lowercase hex digit characters, `0`–`9` followed by
`a`–`f`, built from their code points (48 is `0`, 97 is `a`). -/
def hexDigits : List Char :=
  (List.range 10).map (fun n => Char.ofNat (48 + n)) ++
  (List.range 6).map (fun n => Char.ofNat (97 + n))

/-- The lowercase hex character of `n % 16`. -/
def hexChar (n : Nat) : Char := hexDigits.getD (n % 16) '0'

/-- Lowercase hex rendering of a byte list (two characters per byte),
as produced by `fmt.Sprintf("%x", bytes)`. -/
def hexEncode (bs : List Nat) : String :=
  String.mk (bs.flatMap fun b => [hexChar (b / 16), hexChar b])

/-- The UTF-8 bytes of a unicode code point. -/
def utf8Bytes (n : Nat) : List Nat :=
  if n < 128 then [n]
  else if n < 2048 then [192 + n / 64, 128 + n % 64]
  else if n < 65536 then [224 + n / 4096, 128 + n / 64 % 64, 128 + n % 64]
  else [240 + n / 262144, 128 + n / 4096 % 64, 128 + n / 64 % 64, 128 + n % 64]

/-- The UTF-8 bytes of a string, as `[]byte(s)` yields them in Go. -/
def strBytes (s : String) : List Nat := s.data.flatMap fun c => utf8Bytes c.toNat

/-- The socket key derived from an identifier: lowercase hex of the
SHA-256 digest of its bytes (the `h.Write`/`%x` sequence in `newSocket`). -/
def hashId (s : String) : String := hexEncode (sha256 (strBytes s))

/-- The embedded hash agrees with the standard SHA-256 test vector for
`"abc"`. -/
example : hashId "abc" =
    "ba7816bf8f01cfea414140de5dae2223b00361a396177a9cb410ff61f20015ad" := by
  decide

/-- The embedded hash agrees with the standard SHA-256 test vector for
the empty input. -/
example : hashId "" =
    "e3b0c44298fc1c149afbf4c8996fb92427ae41e4649b934ca495991b7852b855" := by
  decide

/-! ### Channels, maps and messages -/

/-- The observable state of a Go signal channel: the nil (zero-valued,
never-made) channel, an allocated open channel, and a closed channel.
Receiving is ready only on a closed channel (nothing ever sends on the
signal channels of this file); `close` of the nil channel panics. -/
inductive Sig
  | nilChan
  | opened
  | closedChan
  deriving DecidableEq, Repr

/-- Lookup in an association-list rendering of a Go map. -/
def lookupA {α : Type} (l : List (String × α)) (k : String) : Option α :=
  match l with
  | [] => none
  | (k1, v) :: rest => if k1 = k then some v else lookupA rest k

/-- Go map assignment `m[k] = v`: overwrite the entry in place, or add it. -/
def insertA {α : Type} (k : String) (v : α) (l : List (String × α)) :
    List (String × α) :=
  match l with
  | [] => [(k, v)]
  | (k1, v1) :: rest =>
    if k1 = k then (k, v) :: rest else (k1, v1) :: insertA k v rest

/-- Go map deletion `delete(m, k)`. -/
def eraseA {α : Type} (k : String) (l : List (String × α)) : List (String × α) :=
  l.filter fun p => p.1 != k

/-- Go map read of a string-valued map: absent keys yield `""`. -/
def getH (h : List (String × String)) (k : String) : String :=
  (lookupA h k).getD ""

/-- `transport.Message`: a header map and an opaque byte body. -/
structure TMessage where
  header : List (String × String)
  body : List Nat
  deriving DecidableEq, Repr

/-- The internal `message` envelope: socket key, session id, payload. -/
structure Message where
  id : String
  session : String
  data : TMessage
  deriving DecidableEq, Repr

/-- The `socket` fields touched by `default.go`.  `localAddr` renders the
Go field `local` (a Lean keyword).  The socket's `send` field is an alias
of the tunnel's shared send channel and is represented by the tunnel's
`send` queue itself. -/
structure Socket where
  id : String
  session : String
  closed : Sig
  wait : Sig
  recv : List Message
  remote : String
  localAddr : String
  deriving DecidableEq, Repr

/-- The `tun` state.  `uuids` is the environment-chosen supply of values
that successive `uuid.New().String()` calls return; `loops` is a ghost
counter of `go t.process(); go t.listen()` spawn pairs, bumped exactly
when `Connect` genuinely starts the two loops. -/
structure Tun where
  linkLocal : String
  linkRemote : String
  connected : Bool
  send : List Message
  closed : Sig
  sockets : List (String × Socket)
  uuids : List String
  loops : Nat
  deriving DecidableEq, Repr

/-- `newTunnel`: disconnected, empty shared send queue (capacity 128),
fresh (open) close channel, empty socket map. -/
def newTunnel (ll lr : String) (sup : List String) : Tun :=
  { linkLocal := ll, linkRemote := lr, connected := false, send := [],
    closed := .opened, sockets := [], uuids := sup, loops := 0 }

/-- `tun.getSocket`: read-locked lookup in the socket map. -/
def getSocket (t : Tun) (id : String) : Option Socket :=
  lookupA t.sockets id

/-- `tun.newSession`: `uuid.New().String()`, modelled by drawing the next
value of the supply carried in the state. -/
def newSession (t : Tun) : String × Tun :=
  match t.uuids with
  | [] => ("", t)
  | u :: rest => (u, { t with uuids := rest })

/-- `tun.newSocket`: substitute a fresh uuid for an empty id, hash the id,
build the socket and register it.  The Go literal `&socket{...}` does not
mention the `wait` field, so the new socket's `wait` channel is the nil
channel; `remote` and `local` start as the zero string. -/
def newSocket (t : Tun) (id : String) : Socket × Tun :=
  let p := if id.length = 0 then newSession t else (id, t)
  let key := hashId p.1
  let q := newSession p.2
  let s : Socket :=
    { id := key, session := q.1, closed := .opened, wait := .nilChan,
      recv := [], remote := "", localAddr := "" }
  (s, { q.2 with sockets := insertA key s q.2.sockets })

/-! ### Connect / Close -/

/-- Result of `Connect`/`Close`: the new tunnel state and the returned
error. -/
structure TRes where
  tun : Tun
  err : Option String
  deriving DecidableEq, Repr

/-- Modelled from the spec: `socket.Close` lives in a file outside `src`
(the socket type is only referenced here); the spec states that the
socket's closed signal is a broadcast signal closed exactly once on
Close, and nothing else of the socket changes. -/
def sockClose (s : Socket) : Socket := { s with closed := .closedChan }

/-- `tun.Close`: a no-op unless connected with the close channel still
open; otherwise closes every socket in the map (leaving every entry in
place), closes the close channel and clears `connected`. -/
def tunClose (t : Tun) : TRes :=
  if t.connected = false then ⟨t, none⟩
  else
    match t.closed with
    | .closedChan => ⟨t, none⟩
    | _ =>
      ⟨{ t with
           sockets := t.sockets.map (fun p => (p.1, sockClose p.2)),
           closed := .closedChan,
           connected := false }, none⟩

/-- `tun.Connect`: a no-op when already connected; otherwise marks the
tunnel connected, makes a fresh close channel and spawns the two loops. -/
def tunConnect (t : Tun) : TRes :=
  if t.connected = true then ⟨t, none⟩
  else ⟨{ t with connected := true, closed := .opened, loops := t.loops + 1 }, none⟩

/-! ### Dial / Listen -/

/-- Result of `Dial`: the connection, the new tunnel state, the error. -/
structure ConnRes where
  conn : Socket
  tun : Tun
  err : Option String
  deriving DecidableEq, Repr

/-- `tun.Dial`: create and register a socket keyed by the hash of the
address, then set its `remote`/`local` fields.  The Go socket is shared
by pointer between caller and map, so the field writes after `newSocket`
are reflected in the map entry. -/
def tunDial (t : Tun) (addr : String) : ConnRes :=
  let p := newSocket t addr
  let c1 := { p.1 with remote := addr, localAddr := t.linkLocal }
  ⟨c1, { p.2 with sockets := insertA p.1.id c1 p.2.sockets }, none⟩

/-- The part of `tun.Listen` before its blocking select: create and
register the socket, set `remote` to the link's remote address and
`local` to the listen address (pointer-shared with the map entry). -/
def tunListenSetup (t : Tun) (addr : String) : Socket × Tun :=
  let p := newSocket t addr
  let c1 := { p.1 with remote := t.linkRemote, localAddr := addr }
  (c1, { p.2 with sockets := insertA p.1.id c1 p.2.sockets })

/-- The `tunListener` literal built by `tun.Listen` after its select:
empty accept queue (capacity 128), fresh closed channel, and both `conn`
and `socket` fields holding the listening socket. -/
structure TunListener where
  addr : String
  accept : List Socket
  closed : Sig
  conn : Socket
  socket : Socket
  deriving DecidableEq, Repr

/-- Construct the listener `tun.Listen` returns for socket `c`. -/
def mkListener (addr : String) (c : Socket) : TunListener :=
  ⟨addr, [], .opened, c, c⟩

/-- What `tun.Listen` returns once its select fires: the error path or a
listener. -/
inductive ListenRes
  | failed (e : String)
  | ready (l : TunListener)
  deriving DecidableEq, Repr

/-- The blocking select of `tun.Listen`, as a relation on the state of
the listening socket at wake-up time: the closed-channel case returns the
socket-creation error, the wait-channel case returns the listener.  A Go
select may take any ready case; no case is ready while both channels are
unclosed, so the call keeps blocking then. -/
inductive ListenSelect (addr : String) (c : Socket) : ListenRes → Prop
  | closedCase : c.closed = Sig.closedChan →
      ListenSelect addr c (.failed "error creating socket")
  | waitCase : c.wait = Sig.closedChan →
      ListenSelect addr c (.ready (mkListener addr c))

/-! ### The send loop (`tun.process`) -/

/-- The wire message `tun.process` builds from an envelope: the payload's
header map with the tunnel id and then the session id stamped on, and the
payload's body. -/
def wireOf (m : Message) : TMessage :=
  { header := insertA "Micro-Tunnel-Session" m.session
      (insertA "Micro-Tunnel-Id" m.id m.data.header),
    body := m.data.body }

/-- One observable outcome of the send loop's select: the message handed
to `link.Send` (if any), the remaining send queue, and whether the loop
returned. -/
structure ProcOut where
  sent : Option TMessage
  queue : List Message
  stopped : Bool
  deriving DecidableEq, Repr

/-- Which case of a two-way select fires. -/
inductive SelectChoice
  | recvSend
  | recvClosed
  deriving DecidableEq, Repr

/-- One iteration of `tun.process`: receive from the send queue and hand
the stamped wire message to `link.Send` (whose error is discarded by the
source's no-op branch, so `sendFails` does not influence the outcome), or
receive from the closed channel and return.  `none` means the chosen
select case is not ready. -/
def processStep (sendFails : Bool) (cl : Sig) (q : List Message)
    (choice : SelectChoice) : Option ProcOut :=
  match choice with
  | .recvClosed =>
    match cl with
    | .closedChan => some ⟨none, q, true⟩
    | _ => none
  | .recvSend =>
    match q with
    | [] => none
    | m :: rest =>
      -- `if err := t.link.Send(nmsg); err != nil { /* no op */ }`
      some ⟨some (wireOf m), rest, false⟩

/-! ### The receive loop (`tun.listen`) -/

/-- Outcome of one `tun.listen` iteration on an inbound wire message. -/
inductive LStep
  | droppedUnknown (t : Tun)
  | droppedClosed (t : Tun)
  | panicked (t : Tun)
  | delivered (t : Tun) (enq : Bool)
  deriving DecidableEq, Repr

/-- The tunnel state carried by a receive-loop outcome. -/
def stepTun : LStep → Tun
  | .droppedUnknown t => t
  | .droppedClosed t => t
  | .panicked t => t
  | .delivered t _ => t

/-- The non-blocking append to a socket's recv queue (capacity 128): on
success the socket's queue grows (pointer-shared with the map entry), on
overflow the default case drops the envelope and nothing changes. -/
def enqueueTo (t : Tun) (id session : String) (s : Socket) (m : TMessage) :
    LStep :=
  let imsg : Message := ⟨id, session, ⟨m.header, m.body⟩⟩
  if s.recv.length < 128 then
    .delivered
      { t with sockets := insertA id { s with recv := s.recv ++ [imsg] } t.sockets }
      true
  else
    .delivered t false

/-- One iteration of `tun.listen` on a received wire message: extract the
routing headers, look the socket up, drop unknown traffic, purge and drop
closed sockets, run the first-message select (whose default case writes
`remote` and then calls `close(s.wait)` — a panic when `wait` is the nil
channel), and finally try the non-blocking enqueue. -/
def listenStep (t : Tun) (m : TMessage) : LStep :=
  let id := getH m.header "Micro-Tunnel-Id"
  let session := getH m.header "Micro-Tunnel-Session"
  match getSocket t id with
  | none => .droppedUnknown t
  | some s =>
    match s.closed with
    | .closedChan => .droppedClosed { t with sockets := eraseA id t.sockets }
    | _ =>
      match s.wait with
      | .closedChan => enqueueTo t id session s m
      | .nilChan =>
        .panicked
          { t with sockets := insertA id { s with remote := getH m.header "Remote" } t.sockets }
      | .opened =>
        let s1 := { s with remote := getH m.header "Remote", wait := .closedChan }
        enqueueTo { t with sockets := insertA id s1 t.sockets } id session s1 m

/-! ### Operation sequences (for the table-key invariant) -/

/-- One externally triggered step of the tunnel. -/
inductive Op
  | connect
  | closeOp
  | dial (a : String)
  | listenOp (a : String)
  | recv (m : TMessage)

/-- Apply one operation to the tunnel state. -/
def applyOp (t : Tun) : Op → Tun
  | .connect => (tunConnect t).tun
  | .closeOp => (tunClose t).tun
  | .dial a => (tunDial t a).tun
  | .listenOp a => (tunListenSetup t a).2
  | .recv m => stepTun (listenStep t m)

/-- Run a sequence of operations. -/
def run (t : Tun) (ops : List Op) : Tun := ops.foldl applyOp t

/-! ### Association-list lemmas -/

theorem lookupA_insertA_self {α : Type} (k : String) (v : α) (l : List (String × α)) :
    lookupA (insertA k v l) k = some v := by
  induction l with
  | nil => simp [insertA, lookupA]
  | cons p rest ih =>
    obtain ⟨k1, v1⟩ := p
    by_cases h : k1 = k
    · simp [insertA, h, lookupA]
    · simp [insertA, h, lookupA, ih]

theorem lookupA_insertA_ne {α : Type} {k k1 : String} (v : α) (l : List (String × α))
    (h : k1 ≠ k) : lookupA (insertA k v l) k1 = lookupA l k1 := by
  induction l with
  | nil =>
    have hne : ¬k = k1 := fun h1 => h h1.symm
    simp [insertA, lookupA, hne]
  | cons p rest ih =>
    obtain ⟨k2, v2⟩ := p
    by_cases h2 : k2 = k
    · subst h2
      have hne : ¬k2 = k1 := fun h1 => h h1.symm
      simp [insertA, lookupA, hne]
    · simp [insertA, h2, lookupA, ih]

theorem lookupA_map {α β : Type} (f : α → β) (l : List (String × α)) (k : String) :
    lookupA (l.map (fun p => (p.1, f p.2))) k = (lookupA l k).map f := by
  induction l with
  | nil => simp [lookupA]
  | cons p rest ih =>
    obtain ⟨k1, v1⟩ := p
    by_cases h : k1 = k <;> simp [lookupA, h, ih]

theorem lookupA_mem_keys {α : Type} {l : List (String × α)} {k : String} {v : α}
    (h : lookupA l k = some v) : (k, v) ∈ l := by
  induction l with
  | nil => simp [lookupA] at h
  | cons p rest ih =>
    obtain ⟨k1, v1⟩ := p
    by_cases h1 : k1 = k
    · subst h1
      simp [lookupA] at h
      simp [h]
    · simp [lookupA, h1] at h
      exact List.mem_cons_of_mem _ (ih h)

theorem insertA_lookup_eq {α : Type} {l : List (String × α)} {k : String} {v : α}
    (h : lookupA l k = some v) : insertA k v l = l := by
  induction l with
  | nil => simp [lookupA] at h
  | cons p rest ih =>
    obtain ⟨k1, v1⟩ := p
    by_cases h1 : k1 = k
    · subst h1
      simp [lookupA] at h
      simp [insertA, h]
    · simp [lookupA, h1] at h
      simp [insertA, h1, ih h]

theorem mem_insertA {α : Type} {l : List (String × α)} {k : String} {v : α}
    {p : String × α} (h : p ∈ insertA k v l) : p ∈ l ∨ p.1 = k := by
  induction l with
  | nil =>
    simp [insertA] at h
    simp [h]
  | cons q rest ih =>
    obtain ⟨k1, v1⟩ := q
    by_cases h1 : k1 = k
    · subst h1
      simp [insertA] at h
      rcases h with h | h
      · right; simp [h]
      · left; exact List.mem_cons_of_mem _ h
    · simp [insertA, h1] at h
      rcases h with h | h
      · left; simp [h]
      · rcases ih h with h2 | h2
        · left; exact List.mem_cons_of_mem _ h2
        · right; exact h2

theorem mem_eraseA {α : Type} {l : List (String × α)} {k : String}
    {p : String × α} (h : p ∈ eraseA k l) : p ∈ l :=
  (List.mem_filter.mp h).1

theorem getH_insertA_self (h : List (String × String)) (k v : String) :
    getH (insertA k v h) k = v := by
  simp [getH, lookupA_insertA_self]

theorem getH_insertA_ne (h : List (String × String)) {k k1 : String} (v : String)
    (hne : k1 ≠ k) : getH (insertA k v h) k1 = getH h k1 := by
  simp [getH, lookupA_insertA_ne v h hne]

/-! ### Digest-shape lemmas -/

theorem beBytes_length (k n : Nat) : (beBytes k n).length = k := by
  induction k generalizing n with
  | zero => simp [beBytes]
  | succ k ih => simp [beBytes, ih]

theorem sha256_length (msg : List Nat) : (sha256 msg).length = 32 := by
  simp [sha256, digestBytes, beBytes_length]

theorem getD_mem {α : Type} : ∀ (l : List α) (i : Nat) (d : α),
    i < l.length → l.getD i d ∈ l
  | [], i, d, h => absurd h (by simp)
  | a :: l, 0, d, _ => by simp
  | a :: l, i + 1, d, h => by
    simp only [List.getD_cons_succ]
    exact List.mem_cons_of_mem a (getD_mem l i d (by simpa using h))

theorem hexChar_mem (n : Nat) : hexChar n ∈ hexDigits :=
  getD_mem hexDigits (n % 16) '0' (Nat.mod_lt n (by norm_num))

theorem hexEncode_length (bs : List Nat) : (hexEncode bs).length = 2 * bs.length := by
  induction bs with
  | nil => rfl
  | cons b rest ih =>
    simp only [hexEncode, String.length] at ih ⊢
    simp only [List.flatMap_cons, List.length_append, List.length_cons,
      List.length_nil, ih]
    omega

theorem hexEncode_chars (bs : List Nat) :
    ∀ c ∈ (hexEncode bs).data, c ∈ hexDigits := by
  induction bs with
  | nil => simp [hexEncode]
  | cons b rest ih =>
    simp only [hexEncode, List.flatMap_cons] at ih ⊢
    intro c hc
    rcases List.mem_append.mp hc with h | h
    · simp only [List.mem_cons, List.not_mem_nil, or_false] at h
      rcases h with h | h
      · exact h ▸ hexChar_mem _
      · exact h ▸ hexChar_mem _
    · exact ih c h

/-- The shape claimed of every socket-table key: 64 lowercase hex chars. -/
def isHexKey (s : String) : Prop :=
  s.length = 64 ∧ ∀ c ∈ s.data, c ∈ hexDigits

theorem isHexKey_hashId (s : String) : isHexKey (hashId s) := by
  constructor
  · rw [hashId, hexEncode_length, sha256_length]
  · exact hexEncode_chars _

/-! ### Structural lemmas about socket creation -/

theorem length_zero_eq_empty {s : String} (h : s.length = 0) : s = "" := by
  cases s with
  | mk data =>
    cases data with
    | nil => rfl
    | cons c cs => simp [String.length] at h

@[simp] theorem newSession_snd_sockets (t : Tun) : (newSession t).2.sockets = t.sockets := by
  unfold newSession
  cases t.uuids <;> rfl

@[simp] theorem newSession_snd_linkLocal (t : Tun) :
    (newSession t).2.linkLocal = t.linkLocal := by
  unfold newSession
  cases t.uuids <;> rfl

@[simp] theorem newSession_snd_linkRemote (t : Tun) :
    (newSession t).2.linkRemote = t.linkRemote := by
  unfold newSession
  cases t.uuids <;> rfl

theorem newSocket_conn_id (t : Tun) (id : String) :
    (newSocket t id).1.id = hashId (if id.length = 0 then (newSession t).1 else id) := by
  unfold newSocket
  by_cases h : id.length = 0 <;> simp [h]

theorem newSocket_conn_fields (t : Tun) (id : String) :
    (newSocket t id).1.closed = Sig.opened ∧ (newSocket t id).1.wait = Sig.nilChan ∧
    (newSocket t id).1.recv = [] ∧ (newSocket t id).1.remote = "" ∧
    (newSocket t id).1.localAddr = "" := by
  unfold newSocket
  by_cases h : id.length = 0 <;> simp [h]

theorem newSocket_sockets (t : Tun) (id : String) :
    (newSocket t id).2.sockets = insertA ((newSocket t id).1.id) ((newSocket t id).1) t.sockets := by
  unfold newSocket
  by_cases h : id.length = 0 <;> simp [h]

theorem newSocket_nonempty (t : Tun) (id : String) (h : ¬id.length = 0) :
    (newSocket t id).1 =
      { id := hashId id, session := (newSession t).1, closed := Sig.opened,
        wait := Sig.nilChan, recv := [], remote := "", localAddr := "" } ∧
    (newSocket t id).2 =
      { (newSession t).2 with sockets := insertA (hashId id) (newSocket t id).1 t.sockets } := by
  unfold newSocket
  simp [h]

/-! ## Claims -/

/-- C7: a message whose `Micro-Tunnel-Id` header matches no socket-table
key is dropped by the receive loop with no error and with the tunnel
state — socket table included, hence every registered socket's fields and
queue — left exactly unchanged. -/
theorem unknown_key_message_dropped (t : Tun) (m : TMessage)
    (h : getSocket t (getH m.header "Micro-Tunnel-Id") = none) :
    listenStep t m = LStep.droppedUnknown t ∧ stepTun (listenStep t m) = t := by
  unfold listenStep
  simp [h, stepTun]

theorem unknown_key_message_dropped_witness :
    listenStep (newTunnel "L" "R" []) ⟨[], []⟩ = LStep.droppedUnknown (newTunnel "L" "R" []) ∧
    stepTun (listenStep (newTunnel "L" "R" []) ⟨[], []⟩) = newTunnel "L" "R" [] :=
  unknown_key_message_dropped (newTunnel "L" "R" []) ⟨[], []⟩ (by decide)

/-- C3: Connect and Close are idempotent on tunnel state: Connect while
connected returns nil changing nothing (no fresh close channel, no loop
spawns), Close while disconnected or with the close channel already
closed returns nil changing nothing, and Connect;Connect (resp.
Close;Close) leaves the same state as a single Connect (resp. Close). -/
theorem connect_close_idempotent (t : Tun) :
    (t.connected = true → tunConnect t = ⟨t, none⟩) ∧
    (t.connected = false ∨ t.closed = Sig.closedChan → tunClose t = ⟨t, none⟩) ∧
    (tunConnect (tunConnect t).tun).tun = (tunConnect t).tun ∧
    (tunClose (tunClose t).tun).tun = (tunClose t).tun ∧
    (tunConnect t).err = none ∧ (tunClose t).err = none := by
  refine ⟨?_, ?_, ?_, ?_, ?_, ?_⟩
  · intro h
    simp [tunConnect, h]
  · intro h
    rcases h with h | h
    · simp [tunClose, h]
    · by_cases hc : t.connected = false
      · simp [tunClose, hc]
      · simp [tunClose, hc, h]
  · by_cases h : t.connected = true <;> simp [tunConnect, h]
  · by_cases hc : t.connected = false
    · simp [tunClose, hc]
    · rcases h : t.closed with _ | _ | _ <;> simp [tunClose, hc, h]
  · by_cases h : t.connected = true <;> simp [tunConnect, h]
  · by_cases hc : t.connected = false
    · simp [tunClose, hc]
    · rcases h : t.closed with _ | _ | _ <;> simp [tunClose, hc, h]

theorem connect_close_idempotent_witness :
    tunConnect ⟨"L", "R", true, [], Sig.opened, [], [], 1⟩ =
      ⟨⟨"L", "R", true, [], Sig.opened, [], [], 1⟩, none⟩ ∧
    tunClose (newTunnel "L" "R" []) = ⟨newTunnel "L" "R" [], none⟩ :=
  ⟨(connect_close_idempotent ⟨"L", "R", true, [], Sig.opened, [], [], 1⟩).1 (by decide),
   (connect_close_idempotent (newTunnel "L" "R" [])).2.1 (Or.inl (by decide))⟩

/-- C5: for a non-empty address, Dial returns a nil error and a socket
whose key is the lowercase hex SHA-256 digest of the address, whose
`remote` is the address and `local` the link's local address, and
registers that socket in the table under its key.  Dial is a plain total
state transformation: it contains no channel receive, so there is no
handshake wait or blocking before returning. -/
theorem dial_registers_hashed_socket (t : Tun) (a : String) (ha : a ≠ "") :
    (tunDial t a).err = none ∧
    (tunDial t a).conn.id = hexEncode (sha256 (strBytes a)) ∧
    (tunDial t a).conn.remote = a ∧
    (tunDial t a).conn.localAddr = t.linkLocal ∧
    lookupA (tunDial t a).tun.sockets ((tunDial t a).conn.id) = some (tunDial t a).conn := by
  have hl : ¬a.length = 0 := fun h => ha (length_zero_eq_empty h)
  obtain ⟨h1, h2⟩ := newSocket_nonempty t a hl
  unfold tunDial
  refine ⟨rfl, ?_, ?_, ?_, ?_⟩
  · simp [h1, hashId]
  · simp
  · simp
  · simp [lookupA_insertA_self]

theorem dial_registers_hashed_socket_witness :
    (tunDial (newTunnel "L" "R" ["u1"]) "svc-a:7000").err = none ∧
    (tunDial (newTunnel "L" "R" ["u1"]) "svc-a:7000").conn.id =
      hexEncode (sha256 (strBytes "svc-a:7000")) ∧
    (tunDial (newTunnel "L" "R" ["u1"]) "svc-a:7000").conn.remote = "svc-a:7000" ∧
    (tunDial (newTunnel "L" "R" ["u1"]) "svc-a:7000").conn.localAddr =
      (newTunnel "L" "R" ["u1"]).linkLocal ∧
    lookupA (tunDial (newTunnel "L" "R" ["u1"]) "svc-a:7000").tun.sockets
        ((tunDial (newTunnel "L" "R" ["u1"]) "svc-a:7000").conn.id) =
      some (tunDial (newTunnel "L" "R" ["u1"]) "svc-a:7000").conn :=
  dial_registers_hashed_socket (newTunnel "L" "R" ["u1"]) "svc-a:7000" (by decide)

/-- C1: a genuine Close (connected, close channel still open) maps every
socket table entry to its closed version while removing no entry, and
closes the tunnel's close channel; afterwards, any inbound message whose
routing key still matches a table entry makes the receive loop delete
that entry and drop the message (the `droppedClosed` outcome performs no
enqueue).  `sockClose` is modelled from the spec (the socket type's Close
lives outside `src`). -/
theorem close_closes_all_sockets_lazy_purge (t : Tun) (m : TMessage) (s : Socket)
    (hc : t.connected = true) (hcl : t.closed ≠ Sig.closedChan)
    (hs : getSocket (tunClose t).tun (getH m.header "Micro-Tunnel-Id") = some s) :
    (tunClose t).tun.sockets = t.sockets.map (fun p => (p.1, sockClose p.2)) ∧
    (tunClose t).tun.closed = Sig.closedChan ∧
    s.closed = Sig.closedChan ∧
    listenStep (tunClose t).tun m = LStep.droppedClosed { (tunClose t).tun with sockets := eraseA (getH m.header "Micro-Tunnel-Id") (tunClose t).tun.sockets } := by
  have hc2 : ¬t.connected = false := by simp [hc]
  have hstate : tunClose t =
      ⟨{ t with
           sockets := t.sockets.map (fun p => (p.1, sockClose p.2)),
           closed := Sig.closedChan,
           connected := false }, none⟩ := by
    unfold tunClose
    rcases h : t.closed with _ | _ | _
    · simp [hc2, h]
    · simp [hc2, h]
    · exact absurd h hcl
  have hA : (tunClose t).tun.sockets = t.sockets.map (fun p => (p.1, sockClose p.2)) := by
    rw [hstate]
  have hB : (tunClose t).tun.closed = Sig.closedChan := by
    rw [hstate]
  have hsc : s.closed = Sig.closedChan := by
    have hs2 := hs
    unfold getSocket at hs2
    rw [hA, lookupA_map] at hs2
    rcases Option.map_eq_some'.mp hs2 with ⟨s0, _, hmap⟩
    rw [← hmap]
    rfl
  refine ⟨hA, hB, hsc, ?_⟩
  unfold listenStep
  simp [hs, hsc]

theorem close_closes_all_sockets_lazy_purge_witness :
    (tunClose ⟨"L", "R", true, [], Sig.opened, [("k", ⟨"k", "s1", Sig.opened, Sig.nilChan, [], "r", "l"⟩)], [], 1⟩).tun.sockets =
      [("k", (⟨"k", "s1", Sig.opened, Sig.nilChan, [], "r", "l"⟩ : Socket))].map (fun p => (p.1, sockClose p.2)) ∧
    (tunClose ⟨"L", "R", true, [], Sig.opened, [("k", ⟨"k", "s1", Sig.opened, Sig.nilChan, [], "r", "l"⟩)], [], 1⟩).tun.closed = Sig.closedChan ∧
    (sockClose ⟨"k", "s1", Sig.opened, Sig.nilChan, [], "r", "l"⟩).closed = Sig.closedChan ∧
    listenStep (tunClose ⟨"L", "R", true, [], Sig.opened, [("k", ⟨"k", "s1", Sig.opened, Sig.nilChan, [], "r", "l"⟩)], [], 1⟩).tun ⟨[("Micro-Tunnel-Id", "k")], [7]⟩ =
      LStep.droppedClosed { (tunClose ⟨"L", "R", true, [], Sig.opened, [("k", ⟨"k", "s1", Sig.opened, Sig.nilChan, [], "r", "l"⟩)], [], 1⟩).tun with sockets := eraseA (getH (⟨[("Micro-Tunnel-Id", "k")], [7]⟩ : TMessage).header "Micro-Tunnel-Id") (tunClose ⟨"L", "R", true, [], Sig.opened, [("k", ⟨"k", "s1", Sig.opened, Sig.nilChan, [], "r", "l"⟩)], [], 1⟩).tun.sockets } :=
  close_closes_all_sockets_lazy_purge
    ⟨"L", "R", true, [], Sig.opened, [("k", ⟨"k", "s1", Sig.opened, Sig.nilChan, [], "r", "l"⟩)], [], 1⟩
    ⟨[("Micro-Tunnel-Id", "k")], [7]⟩
    (sockClose ⟨"k", "s1", Sig.opened, Sig.nilChan, [], "r", "l"⟩)
    (by decide) (by decide) (by decide)

/-- C2 (code bug): the Go constructor `&socket{...}` in `newSocket` never
initializes the socket's `wait` channel, so a freshly dialed socket's
gate is the nil channel; when the first matching inbound message reaches
it, the receive loop's default select case writes the sender's `Remote`
header into the socket's `remote` field and then executes
`close(s.wait)`, which panics on a nil channel instead of closing the
gate as the claim (and the spec's handshake design) describes. -/
theorem first_message_nil_wait_panics (t : Tun) (a : String) (m : TMessage)
    (ha : a ≠ "")
    (hm : getH m.header "Micro-Tunnel-Id" = (tunDial t a).conn.id) :
    listenStep (tunDial t a).tun m =
      LStep.panicked { (tunDial t a).tun with sockets := insertA ((tunDial t a).conn.id) { (tunDial t a).conn with remote := getH m.header "Remote" } (tunDial t a).tun.sockets } := by
  have hl : ¬a.length = 0 := fun h => ha (length_zero_eq_empty h)
  obtain ⟨h1, h2⟩ := newSocket_nonempty t a hl
  have hlook : getSocket (tunDial t a).tun ((tunDial t a).conn.id) = some (tunDial t a).conn := by
    unfold tunDial getSocket
    simp [lookupA_insertA_self]
  have hcl : (tunDial t a).conn.closed = Sig.opened := by
    unfold tunDial
    simp [h1]
  have hw : (tunDial t a).conn.wait = Sig.nilChan := by
    unfold tunDial
    simp [h1]
  unfold listenStep
  rw [hm]
  simp [hlook, hcl, hw]

theorem first_message_nil_wait_panics_witness :
    listenStep (tunDial (newTunnel "L" "R" ["u1"]) "abc").tun ⟨[("Micro-Tunnel-Id", hashId "abc"), ("Remote", "peer-9:4000")], []⟩ =
      LStep.panicked { (tunDial (newTunnel "L" "R" ["u1"]) "abc").tun with sockets := insertA ((tunDial (newTunnel "L" "R" ["u1"]) "abc").conn.id) { (tunDial (newTunnel "L" "R" ["u1"]) "abc").conn with remote := getH (⟨[("Micro-Tunnel-Id", hashId "abc"), ("Remote", "peer-9:4000")], []⟩ : TMessage).header "Remote" } (tunDial (newTunnel "L" "R" ["u1"]) "abc").tun.sockets } :=
  first_message_nil_wait_panics (newTunnel "L" "R" ["u1"]) "abc"
    ⟨[("Micro-Tunnel-Id", hashId "abc"), ("Remote", "peer-9:4000")], []⟩
    (by decide) (by rfl)

/-- C8: when the receive loop reaches the non-blocking enqueue for a
registered, non-closed socket whose gate is already closed and whose
inbound queue holds its full capacity of 128 envelopes, the message is
dropped without error and the tunnel state — in particular that socket's
queue contents and order — is left exactly as it was. -/
theorem full_recv_queue_drops_message (t : Tun) (m : TMessage) (s : Socket)
    (hs : getSocket t (getH m.header "Micro-Tunnel-Id") = some s)
    (hcl : s.closed ≠ Sig.closedChan)
    (hw : s.wait = Sig.closedChan)
    (hfull : s.recv.length = 128) :
    listenStep t m = LStep.delivered t false ∧
    lookupA (stepTun (listenStep t m)).sockets (getH m.header "Micro-Tunnel-Id") = some s := by
  have h1 : listenStep t m = LStep.delivered t false := by
    unfold listenStep enqueueTo
    rcases hc : s.closed with _ | _ | _
    · simp [hs, hc, hw, hfull]
    · simp [hs, hc, hw, hfull]
    · exact absurd hc hcl
  refine ⟨h1, ?_⟩
  rw [h1]
  exact hs

theorem full_recv_queue_drops_message_witness :
    listenStep ⟨"L", "R", true, [], Sig.opened, [("k", ⟨"k", "s1", Sig.opened, Sig.closedChan, List.replicate 128 ⟨"k", "s1", ⟨[], []⟩⟩, "r", "l"⟩)], [], 1⟩ ⟨[("Micro-Tunnel-Id", "k")], [1]⟩ =
      LStep.delivered ⟨"L", "R", true, [], Sig.opened, [("k", ⟨"k", "s1", Sig.opened, Sig.closedChan, List.replicate 128 ⟨"k", "s1", ⟨[], []⟩⟩, "r", "l"⟩)], [], 1⟩ false ∧
    lookupA (stepTun (listenStep ⟨"L", "R", true, [], Sig.opened, [("k", ⟨"k", "s1", Sig.opened, Sig.closedChan, List.replicate 128 ⟨"k", "s1", ⟨[], []⟩⟩, "r", "l"⟩)], [], 1⟩ ⟨[("Micro-Tunnel-Id", "k")], [1]⟩)).sockets (getH (⟨[("Micro-Tunnel-Id", "k")], [1]⟩ : TMessage).header "Micro-Tunnel-Id") =
      some ⟨"k", "s1", Sig.opened, Sig.closedChan, List.replicate 128 ⟨"k", "s1", ⟨[], []⟩⟩, "r", "l"⟩ :=
  full_recv_queue_drops_message
    ⟨"L", "R", true, [], Sig.opened, [("k", ⟨"k", "s1", Sig.opened, Sig.closedChan, List.replicate 128 ⟨"k", "s1", ⟨[], []⟩⟩, "r", "l"⟩)], [], 1⟩
    ⟨[("Micro-Tunnel-Id", "k")], [1]⟩
    ⟨"k", "s1", Sig.opened, Sig.closedChan, List.replicate 128 ⟨"k", "s1", ⟨[], []⟩⟩, "r", "l"⟩
    (by decide) (by decide) (by decide) (by decide)

theorem insertA_insertA {α : Type} (k : String) (v w : α) (l : List (String × α)) :
    insertA k v (insertA k w l) = insertA k v l := by
  induction l with
  | nil => simp [insertA]
  | cons p rest ih =>
    obtain ⟨k1, v1⟩ := p
    by_cases h : k1 = k
    · simp [insertA, h]
    · simp [insertA, h, ih]

theorem tunDial_conn_id (t : Tun) (a : String) (hl : ¬a.length = 0) :
    (tunDial t a).conn.id = hashId a := by
  obtain ⟨h1, h2⟩ := newSocket_nonempty t a hl
  unfold tunDial
  simp [h1]

theorem tunDial_conn_closed (t : Tun) (a : String) (hl : ¬a.length = 0) :
    (tunDial t a).conn.closed = Sig.opened := by
  obtain ⟨h1, h2⟩ := newSocket_nonempty t a hl
  unfold tunDial
  simp [h1]

theorem tunDial_sockets (t : Tun) (a : String) (hl : ¬a.length = 0) :
    (tunDial t a).tun.sockets = insertA (hashId a) ((tunDial t a).conn) t.sockets := by
  obtain ⟨h1, h2⟩ := newSocket_nonempty t a hl
  simp only [tunDial]
  rw [newSocket_sockets, h1]
  simp [insertA_insertA]

/-- C4: the send loop hands `link.Send` a wire message whose body is the
envelope payload's body and whose header map is the payload's headers
with `Micro-Tunnel-Id` set to the envelope's socket key and
`Micro-Tunnel-Session` set to its session id; the outcome of a loop
iteration is entirely independent of whether `link.Send` fails (the
error is swallowed by a no-op, the message is not requeued, and the next
iteration sees only the remaining queue); and the loop returns exactly
through the closed-channel select case. -/
theorem send_loop_wire_format_and_termination (e : Bool) (cl : Sig) (m : Message)
    (rest q : List Message) (choice : SelectChoice) :
    processStep e cl (m :: rest) SelectChoice.recvSend = some ⟨some (wireOf m), rest, false⟩ ∧
    (wireOf m).body = m.data.body ∧
    getH (wireOf m).header "Micro-Tunnel-Id" = m.id ∧
    getH (wireOf m).header "Micro-Tunnel-Session" = m.session ∧
    (∀ k, k ≠ "Micro-Tunnel-Id" → k ≠ "Micro-Tunnel-Session" →
      getH (wireOf m).header k = getH m.data.header k) ∧
    processStep true cl q choice = processStep false cl q choice ∧
    (∀ out, processStep e cl q choice = some out → out.stopped = true → cl = Sig.closedChan) ∧
    (cl = Sig.closedChan → processStep e cl q SelectChoice.recvClosed = some ⟨none, q, true⟩) := by
  refine ⟨rfl, rfl, ?_, ?_, ?_, rfl, ?_, ?_⟩
  · show getH (insertA "Micro-Tunnel-Session" m.session (insertA "Micro-Tunnel-Id" m.id m.data.header)) "Micro-Tunnel-Id" = m.id
    rw [getH_insertA_ne _ _ (by decide), getH_insertA_self]
  · show getH (insertA "Micro-Tunnel-Session" m.session (insertA "Micro-Tunnel-Id" m.id m.data.header)) "Micro-Tunnel-Session" = m.session
    rw [getH_insertA_self]
  · intro k h1 h2
    show getH (insertA "Micro-Tunnel-Session" m.session (insertA "Micro-Tunnel-Id" m.id m.data.header)) k = getH m.data.header k
    rw [getH_insertA_ne _ _ h2, getH_insertA_ne _ _ h1]
  · intro out h1 h2
    cases choice with
    | recvSend =>
      cases q with
      | nil => simp [processStep] at h1
      | cons m1 rest1 =>
        simp [processStep] at h1
        rw [← h1] at h2
        simp at h2
    | recvClosed =>
      cases hc : cl with
      | closedChan => rfl
      | nilChan => rw [hc] at h1; simp [processStep] at h1
      | opened => rw [hc] at h1; simp [processStep] at h1
  · intro h
    subst h
    rfl

theorem send_loop_wire_format_and_termination_witness :
    processStep true Sig.closedChan [] SelectChoice.recvClosed = some ⟨none, [], true⟩ ∧
    getH (wireOf ⟨"k", "s1", ⟨[("a", "b")], [5]⟩⟩).header "a" =
      getH (⟨[("a", "b")], [5]⟩ : TMessage).header "a" :=
  ⟨(send_loop_wire_format_and_termination true Sig.closedChan ⟨"k", "s1", ⟨[("a", "b")], [5]⟩⟩ [] [] SelectChoice.recvClosed).2.2.2.2.2.2.2 rfl,
   (send_loop_wire_format_and_termination true Sig.closedChan ⟨"k", "s1", ⟨[("a", "b")], [5]⟩⟩ [] [] SelectChoice.recvClosed).2.2.2.2.1 "a" (by decide) (by decide)⟩

/-- C6 counterexample: with the empty string as address (an address the
claims elsewhere explicitly admit), `Listen` does not register the socket
under the hash of the address: `newSocket` substitutes a freshly drawn
random identifier before hashing, so the socket's key differs from the
hash of the address and nothing in the table lies under that hash. -/
theorem listen_empty_address_not_keyed_by_hash :
    (tunListenSetup (newTunnel "L" "R" ["u1", "u2"]) "").1.id ≠ hashId "" ∧
    lookupA (tunListenSetup (newTunnel "L" "R" ["u1", "u2"]) "").2.sockets (hashId "") = none := by
  exact ⟨by decide, by decide⟩

/-- C6 (amended to non-empty addresses): Listen registers a socket keyed
by the hash of the address with `local` the address and `remote` the
link's remote address, and then blocks on a select whose closed-channel
case — available exactly when the socket's closed signal is set — returns
a nil listener with the error `error creating socket`, and whose
wait-channel case — available exactly when the first-message gate is
closed — returns a listener wrapping that socket with a nil error; no
case is available while neither signal is set. -/
theorem listen_setup_and_handshake (t : Tun) (addr : String) (c : Socket) (ha : addr ≠ "") :
    ((tunListenSetup t addr).1.id = hashId addr ∧
     (tunListenSetup t addr).1.localAddr = addr ∧
     (tunListenSetup t addr).1.remote = t.linkRemote ∧
     lookupA (tunListenSetup t addr).2.sockets (hashId addr) = some (tunListenSetup t addr).1) ∧
    (c.closed = Sig.closedChan → ListenSelect addr c (ListenRes.failed "error creating socket")) ∧
    (c.wait = Sig.closedChan → ListenSelect addr c (ListenRes.ready (mkListener addr c))) ∧
    (∀ r, ListenSelect addr c r →
      (r = ListenRes.failed "error creating socket" ∧ c.closed = Sig.closedChan) ∨
      (r = ListenRes.ready (mkListener addr c) ∧ c.wait = Sig.closedChan)) ∧
    (c.closed ≠ Sig.closedChan → c.wait ≠ Sig.closedChan → ∀ r, ¬ListenSelect addr c r) := by
  have hl : ¬addr.length = 0 := fun h => ha (length_zero_eq_empty h)
  obtain ⟨h1, h2⟩ := newSocket_nonempty t addr hl
  refine ⟨⟨?_, ?_, ?_, ?_⟩, ?_, ?_, ?_, ?_⟩
  · unfold tunListenSetup
    simp [h1]
  · unfold tunListenSetup
    simp
  · unfold tunListenSetup
    simp
  · unfold tunListenSetup
    simp [h1, lookupA_insertA_self]
  · exact fun h => ListenSelect.closedCase h
  · exact fun h => ListenSelect.waitCase h
  · intro r hr
    cases hr with
    | closedCase h => exact Or.inl ⟨rfl, h⟩
    | waitCase h => exact Or.inr ⟨rfl, h⟩
  · intro hc hw r hr
    cases hr with
    | closedCase h => exact hc h
    | waitCase h => exact hw h

theorem listen_setup_and_handshake_witness :
    (tunListenSetup (newTunnel "L" "R" ["u1"]) "svc").1.id = hashId "svc" ∧
    ListenSelect "svc" ⟨"k", "s1", Sig.closedChan, Sig.nilChan, [], "r", "l"⟩
      (ListenRes.failed "error creating socket") ∧
    ListenSelect "svc" ⟨"k", "s1", Sig.opened, Sig.closedChan, [], "r", "l"⟩
      (ListenRes.ready (mkListener "svc" ⟨"k", "s1", Sig.opened, Sig.closedChan, [], "r", "l"⟩)) :=
  ⟨((listen_setup_and_handshake (newTunnel "L" "R" ["u1"]) "svc" ⟨"k", "s1", Sig.closedChan, Sig.nilChan, [], "r", "l"⟩ (by decide)).1).1,
   (listen_setup_and_handshake (newTunnel "L" "R" ["u1"]) "svc" ⟨"k", "s1", Sig.closedChan, Sig.nilChan, [], "r", "l"⟩ (by decide)).2.1 rfl,
   (listen_setup_and_handshake (newTunnel "L" "R" ["u1"]) "svc" ⟨"k", "s1", Sig.opened, Sig.closedChan, [], "r", "l"⟩ (by decide)).2.2.1 rfl⟩

/-- C9 counterexample: with the empty string as address, two sequential
Dial calls hash two distinct freshly drawn identifiers, so the two
routing keys differ — the claim's universally quantified determinism
fails at the empty address. -/
theorem dial_empty_address_distinct_keys :
    (tunDial (tunDial (newTunnel "L" "R" ["u1", "u2", "u3", "u4"]) "").tun "").conn.id ≠
    (tunDial (newTunnel "L" "R" ["u1", "u2", "u3", "u4"]) "").conn.id := by
  decide

/-- C9 (amended to non-empty addresses): two sequential dials of the same
non-empty address produce the identical routing key; the second call's
registration overwrites that key's table entry in place, so afterwards
the table maps the key to the second socket; and the replacement does not
set the first socket's closed signal. -/
theorem redial_same_address_overwrites (t : Tun) (a : String) (ha : a ≠ "") :
    (tunDial (tunDial t a).tun a).conn.id = (tunDial t a).conn.id ∧
    (tunDial (tunDial t a).tun a).tun.sockets =
      insertA ((tunDial t a).conn.id) ((tunDial (tunDial t a).tun a).conn) ((tunDial t a).tun.sockets) ∧
    lookupA (tunDial (tunDial t a).tun a).tun.sockets ((tunDial t a).conn.id) =
      some ((tunDial (tunDial t a).tun a).conn) ∧
    (tunDial t a).conn.closed = Sig.opened := by
  have hl : ¬a.length = 0 := fun h => ha (length_zero_eq_empty h)
  have hid1 : (tunDial t a).conn.id = hashId a := tunDial_conn_id t a hl
  have hid2 : (tunDial (tunDial t a).tun a).conn.id = hashId a :=
    tunDial_conn_id (tunDial t a).tun a hl
  have hsock : (tunDial (tunDial t a).tun a).tun.sockets =
      insertA (hashId a) ((tunDial (tunDial t a).tun a).conn) ((tunDial t a).tun.sockets) :=
    tunDial_sockets (tunDial t a).tun a hl
  refine ⟨hid2.trans hid1.symm, ?_, ?_, tunDial_conn_closed t a hl⟩
  · rw [hsock, hid1]
  · rw [hsock, hid1, lookupA_insertA_self]

theorem redial_same_address_overwrites_witness :
    (tunDial (tunDial (newTunnel "L" "R" ["u1", "u2"]) "abc").tun "abc").conn.id =
      (tunDial (newTunnel "L" "R" ["u1", "u2"]) "abc").conn.id ∧
    (tunDial (tunDial (newTunnel "L" "R" ["u1", "u2"]) "abc").tun "abc").tun.sockets =
      insertA ((tunDial (newTunnel "L" "R" ["u1", "u2"]) "abc").conn.id)
        ((tunDial (tunDial (newTunnel "L" "R" ["u1", "u2"]) "abc").tun "abc").conn)
        ((tunDial (newTunnel "L" "R" ["u1", "u2"]) "abc").tun.sockets) ∧
    lookupA (tunDial (tunDial (newTunnel "L" "R" ["u1", "u2"]) "abc").tun "abc").tun.sockets
        ((tunDial (newTunnel "L" "R" ["u1", "u2"]) "abc").conn.id) =
      some ((tunDial (tunDial (newTunnel "L" "R" ["u1", "u2"]) "abc").tun "abc").conn) ∧
    (tunDial (newTunnel "L" "R" ["u1", "u2"]) "abc").conn.closed = Sig.opened :=
  redial_same_address_overwrites (newTunnel "L" "R" ["u1", "u2"]) "abc" (by decide)

/-! ### The table-key invariant -/

/-- Every key of the socket table has digest shape. -/
def keysHex (t : Tun) : Prop := ∀ p ∈ t.sockets, isHexKey p.1

theorem keysHex_insertA {l : List (String × Socket)} {k : String} {v : Socket}
    (hl : ∀ p ∈ l, isHexKey p.1) (hk : isHexKey k) :
    ∀ p ∈ insertA k v l, isHexKey p.1 :=
  fun p hp => (mem_insertA hp).elim (hl p) (fun h => h ▸ hk)

theorem isHexKey_newSocket_id (t : Tun) (id : String) :
    isHexKey (newSocket t id).1.id := by
  rw [newSocket_conn_id]
  exact isHexKey_hashId _

theorem keysHex_newSocket (t : Tun) (id : String) (h : keysHex t) :
    keysHex (newSocket t id).2 := by
  intro p hp
  rw [newSocket_sockets] at hp
  exact keysHex_insertA h (isHexKey_newSocket_id t id) p hp

theorem keysHex_tunDial (t : Tun) (a : String) (h : keysHex t) :
    keysHex (tunDial t a).tun := by
  intro p hp
  simp only [tunDial] at hp
  rcases mem_insertA hp with h2 | h2
  · exact keysHex_newSocket t a h p h2
  · rw [h2]
    exact isHexKey_newSocket_id t a

theorem keysHex_tunListenSetup (t : Tun) (a : String) (h : keysHex t) :
    keysHex (tunListenSetup t a).2 := by
  intro p hp
  simp only [tunListenSetup] at hp
  rcases mem_insertA hp with h2 | h2
  · exact keysHex_newSocket t a h p h2
  · rw [h2]
    exact isHexKey_newSocket_id t a

theorem keysHex_enqueueTo (t : Tun) (id session : String) (s : Socket) (m : TMessage)
    (ht : keysHex t) (hid : isHexKey id) :
    keysHex (stepTun (enqueueTo t id session s m)) := by
  unfold enqueueTo
  by_cases hlen : s.recv.length < 128
  · simp only [hlen, if_true, stepTun]
    intro p hp
    rcases mem_insertA hp with h2 | h2
    · exact ht p h2
    · rw [h2]
      exact hid
  · simp only [hlen, if_false, stepTun]
    exact ht

theorem keysHex_listenStep (t : Tun) (m : TMessage) (h : keysHex t) :
    keysHex (stepTun (listenStep t m)) := by
  rcases hs : getSocket t (getH m.header "Micro-Tunnel-Id") with _ | s
  · have he : listenStep t m = LStep.droppedUnknown t := by
      unfold listenStep
      simp [hs]
    rw [he]
    exact h
  have hid : isHexKey (getH m.header "Micro-Tunnel-Id") :=
    h _ (lookupA_mem_keys hs)
  rcases hc : s.closed with _ | _ | _
  · rcases hw : s.wait with _ | _ | _
    · have he : listenStep t m = LStep.panicked { t with sockets := insertA (getH m.header "Micro-Tunnel-Id") { s with remote := getH m.header "Remote" } t.sockets } := by
        unfold listenStep
        simp [hs, hc, hw]
      rw [he]
      exact fun p hp => keysHex_insertA h hid p hp
    · have he : listenStep t m = enqueueTo { t with sockets := insertA (getH m.header "Micro-Tunnel-Id") { s with remote := getH m.header "Remote", wait := Sig.closedChan } t.sockets } (getH m.header "Micro-Tunnel-Id") (getH m.header "Micro-Tunnel-Session") { s with remote := getH m.header "Remote", wait := Sig.closedChan } m := by
        unfold listenStep
        simp [hs, hc, hw]
      rw [he]
      exact keysHex_enqueueTo _ _ _ _ _ (fun p hp => keysHex_insertA h hid p hp) hid
    · have he : listenStep t m = enqueueTo t (getH m.header "Micro-Tunnel-Id") (getH m.header "Micro-Tunnel-Session") s m := by
        unfold listenStep
        simp [hs, hc, hw]
      rw [he]
      exact keysHex_enqueueTo _ _ _ _ _ h hid
  · rcases hw : s.wait with _ | _ | _
    · have he : listenStep t m = LStep.panicked { t with sockets := insertA (getH m.header "Micro-Tunnel-Id") { s with remote := getH m.header "Remote" } t.sockets } := by
        unfold listenStep
        simp [hs, hc, hw]
      rw [he]
      exact fun p hp => keysHex_insertA h hid p hp
    · have he : listenStep t m = enqueueTo { t with sockets := insertA (getH m.header "Micro-Tunnel-Id") { s with remote := getH m.header "Remote", wait := Sig.closedChan } t.sockets } (getH m.header "Micro-Tunnel-Id") (getH m.header "Micro-Tunnel-Session") { s with remote := getH m.header "Remote", wait := Sig.closedChan } m := by
        unfold listenStep
        simp [hs, hc, hw]
      rw [he]
      exact keysHex_enqueueTo _ _ _ _ _ (fun p hp => keysHex_insertA h hid p hp) hid
    · have he : listenStep t m = enqueueTo t (getH m.header "Micro-Tunnel-Id") (getH m.header "Micro-Tunnel-Session") s m := by
        unfold listenStep
        simp [hs, hc, hw]
      rw [he]
      exact keysHex_enqueueTo _ _ _ _ _ h hid
  · have he : listenStep t m = LStep.droppedClosed { t with sockets := eraseA (getH m.header "Micro-Tunnel-Id") t.sockets } := by
      unfold listenStep
      simp [hs, hc]
    rw [he]
    intro p hp
    exact h p (mem_eraseA hp)

theorem keysHex_applyOp (t : Tun) (op : Op) (h : keysHex t) :
    keysHex (applyOp t op) := by
  cases op with
  | connect =>
    unfold applyOp tunConnect
    by_cases hc : t.connected = true
    · simp only [hc, if_true]
      exact h
    · simp only [hc, if_false]
      intro p hp
      exact h p hp
  | closeOp =>
    unfold applyOp tunClose
    by_cases hc : t.connected = false
    · simp only [hc, if_true]
      exact h
    · rcases hcl : t.closed with _ | _ | _ <;> simp only [hc, hcl, if_false]
      · intro p hp
        rcases List.mem_map.mp hp with ⟨q, hq, rfl⟩
        exact h q hq
      · intro p hp
        rcases List.mem_map.mp hp with ⟨q, hq, rfl⟩
        exact h q hq
      · exact h
  | dial a => exact keysHex_tunDial t a h
  | listenOp a => exact keysHex_tunListenSetup t a h
  | recv m => exact keysHex_listenStep t m h

theorem keysHex_run (t : Tun) (ops : List Op) (h : keysHex t) :
    keysHex (run t ops) := by
  induction ops generalizing t with
  | nil => exact h
  | cons op rest ih => exact ih (applyOp t op) (keysHex_applyOp t op h)

/-- C10: after any sequence of Dial, Listen registrations, Connect,
Close and receive-loop steps from a fresh tunnel, every key present in
the socket table is a 64-character string of lowercase hex digit
characters (a SHA-256 digest rendering) — including when an operation was
given the empty address, in which case a freshly drawn identifier was
hashed instead; no operation ever inserts a raw unhashed address. -/
theorem table_keys_are_hex_digests (ll lr : String) (sup : List String) (ops : List Op) :
    ∀ p ∈ (run (newTunnel ll lr sup) ops).sockets,
      p.1.length = 64 ∧ ∀ c ∈ p.1.data, c ∈ hexDigits := by
  have base : keysHex (newTunnel ll lr sup) := by
    intro p hp
    simp [newTunnel] at hp
  exact keysHex_run (newTunnel ll lr sup) ops base

theorem table_keys_are_hex_digests_witness :
    ((tunDial (newTunnel "L" "R" ["u1", "u2"]) "").conn.id).length = 64 ∧
    ∀ c ∈ ((tunDial (newTunnel "L" "R" ["u1", "u2"]) "").conn.id).data, c ∈ hexDigits :=
  table_keys_are_hex_digests "L" "R" ["u1", "u2"] [Op.dial ""]
    ((tunDial (newTunnel "L" "R" ["u1", "u2"]) "").conn.id,
     (tunDial (newTunnel "L" "R" ["u1", "u2"]) "").conn)
    (by decide)

end Tunnel
